import Mathlib

/-!
Verification of the lottery-checker repository (galind/lottery-checker).

Shallow embedding of the result-acquisition and aggregation engine found in
src/lottery_analyzer.py and src/lottery_utils.py.

Modelling conventions:
* Calendar dates are integers counting days, with day 0 a Monday, so that
  Python's date.weekday() (Monday = 0 .. Sunday = 6) is day number mod 7 and
  Saturday is weekday 5.  datetime arithmetic (plus or minus whole days,
  comparison) is the external date library; it is modelled by integer
  arithmetic on day numbers.
* Python floats are modelled as rationals; the amounts parsed from prize
  texts are small decimals, where the two agree.
* Python % on integers (floor mod) is modelled by pymod below.
* The HTTP transport and the markup parser are external collaborators per
  the spec; a fetched page is modelled by the fields the code extracts from
  it: the title text, and the prize region with its optional nested
  text-premio-det sub-element text and its full flattened text (line-break
  tags already replaced by spaces, which is what the code does with
  BeautifulSoup before calling get_text).
-/

/-- Python integer remainder a % b for b > 0 (floor modulus, result in [0, b)). -/
def pymod (a b : ℤ) : ℤ := (a % b + b) % b

/-- Python date.weekday() of a day number: Monday = 0 .. Sunday = 6; day 0 is a Monday. -/
def weekday (d : ℤ) : ℤ := pymod d 7

/-- Membership of a substring, Python's `sub in s` on lists of characters. -/
def containsSubAux (s sub : List Char) : Bool :=
  match s with
  | [] => sub.isEmpty
  | _ :: t => sub.isPrefixOf s || containsSubAux t sub

/-- Python's `sub in s` on strings. -/
def strContains (s sub : String) : Bool := containsSubAux s.toList sub.toList

/-- Python str.lower() (ASCII case folding, which covers every marker and
keyword the code compares against). -/
def pyLower (s : String) : String := String.mk (s.toList.map Char.toLower)

/-- Whitespace stripped from both ends of a character list. -/
def stripList (cs : List Char) : List Char :=
  ((cs.dropWhile Char.isWhitespace).reverse.dropWhile Char.isWhitespace).reverse

/-- Python str.strip() with no argument. -/
def pyStrip (s : String) : String := String.mk (stripList s.toList)

/-- Splitting on whitespace runs, dropping empties, carrying the current word
reversed. -/
def splitWsAux : List Char → List Char → List String
  | [], acc => if acc = [] then [] else [String.mk acc.reverse]
  | c :: t, acc =>
    if c.isWhitespace then
      if acc = [] then splitWsAux t [] else String.mk acc.reverse :: splitWsAux t []
    else splitWsAux t (c :: acc)

/-- Python str.split() with no argument: split on whitespace runs, dropping
empties. -/
def pySplit (s : String) : List String := splitWsAux s.toList []

/-- Python " ".join(s.split()): collapse all whitespace runs to single spaces. -/
def normWs (s : String) : String :=
  String.mk (List.intercalate [' '] ((pySplit s).map String.toList))

/-- The locale-specific no-prize marker the code tests for (lower case). -/
def noPrizeMarker : String := "no tiene premio"

/-- Greedy run of decimal digits at the head of the character list, with the rest. -/
def takeDigits : List Char → List Char × List Char
  | [] => ([], [])
  | c :: cs =>
    if c.isDigit then
      let p := takeDigits cs
      (c :: p.1, p.2)
    else ([], c :: cs)

/-- Greedy run of whitespace dropped from the head, the `\s*` of the pattern. -/
def dropSpaces (cs : List Char) : List Char := cs.dropWhile Char.isWhitespace

/-- Attempt of the regex `(\d+(?:,\d+)?)\s*€` anchored at the current position:
returns the captured group and the rest of the input after the euro sign.
The only backtracking the pattern ever needs is dropping the optional
`(?:,\d+)` group, because a shorter `\d+` always leaves a digit where `,`,
`\s` or `€` would have to match. -/
def matchEuro (cs : List Char) : Option (List Char × List Char) :=
  let p1 := takeDigits cs
  if p1.1 = [] then none
  else
    let withComma : Option (List Char × List Char) :=
      match p1.2 with
      | ',' :: r2 =>
        let p2 := takeDigits r2
        if p2.1 = [] then none
        else
          match dropSpaces p2.2 with
          | '€' :: r4 => some (p1.1 ++ ',' :: p2.1, r4)
          | _ => none
      | _ => none
    match withComma with
    | some res => some res
    | none =>
      match dropSpaces p1.2 with
      | '€' :: r4 => some (p1.1, r4)
      | _ => none

/-- Scan of re.findall: try a match at each position, resuming after each hit.
The fuel is the input length plus one; every step consumes at least one
character, so it never runs out before the input does. -/
def findEuroAux : ℕ → List Char → List String
  | 0, _ => []
  | fuel + 1, cs =>
    match matchEuro cs with
    | some (g, rest) => String.mk g :: findEuroAux fuel rest
    | none =>
      match cs with
      | [] => []
      | _ :: t => findEuroAux fuel t

/-- re.findall of the euro-amount pattern over a prize text: the captured
digit groups, left to right. -/
def findEuroTokens (s : String) : List String :=
  findEuroAux (s.toList.length + 1) s.toList

/-- Numeric value of a digit run. -/
def digitsToNat (cs : List Char) : ℕ :=
  cs.foldl (fun n c => 10 * n + (c.toNat - Char.toNat '0')) 0

/-- Python float(group.replace(",", ".")) on a captured group, which is
always `digits` or `digits,digits`: the comma is read as a decimal point. -/
def floatOfGroup (cs : List Char) : ℚ :=
  match cs.splitOn ',' with
  | [d] => (digitsToNat d : ℚ)
  | [d, f] => (digitsToNat d : ℚ) + (digitsToNat f : ℚ) / ((10 : ℚ) ^ f.length)
  | _ => 0

/-- Python max over a nonempty list (left fold); 0 on the empty list, which the
callers guard against. -/
def pyMax : List ℚ → ℚ
  | [] => 0
  | a :: t => t.foldl max a

namespace LotteryAnalyzer

/-- parse_prize_amount of src/lottery_analyzer.py: no-prize marker wins;
otherwise the FIRST regex match is converted and returned (the float
conversion never fails on a captured group, so the except branch is dead). -/
def parse_prize_amount (prize_text : String) : ℚ :=
  if prize_text = "" || strContains (pyLower prize_text) noPrizeMarker then 0
  else
    match findEuroTokens prize_text with
    | [] => 0
    | g :: _ => floatOfGroup g.toList

end LotteryAnalyzer

namespace LotteryUtils

/-- parse_prize_amount of src/lottery_utils.py: no-prize marker wins;
otherwise every regex match is converted and the maximum is returned
(the float conversion never fails on a captured group, so the continue
branch is dead and the amounts list is nonempty whenever matches is). -/
def parse_prize_amount (prize_text : String) : ℚ :=
  if prize_text = "" || strContains (pyLower prize_text) noPrizeMarker then 0
  else
    let ms := findEuroTokens prize_text
    if ms = [] then 0
    else
      let amounts := ms.map (fun g => floatOfGroup g.toList)
      if amounts = [] then 0 else pyMax amounts

end LotteryUtils

/-- get_previous_saturday of src/lottery_utils.py; the identical arithmetic is
inlined in fetch_all_available_data of src/lottery_analyzer.py:
days_since_saturday = (date.weekday() - 5) % 7, and when that is zero (the
date is itself a Saturday) go back a full week, else go back
days_since_saturday days. -/
def get_previous_saturday (d : ℤ) : ℤ :=
  if pymod (weekday d - 5) 7 = 0 then d - 7 else d - pymod (weekday d - 5) 7

/-- Loop of generate_date_range: current walks one day at a time from start
while current <= end, collecting Saturdays. -/
def genLoop (e cur : ℤ) : List ℤ :=
  if cur ≤ e then (if weekday cur = 5 then [cur] else []) ++ genLoop e (cur + 1)
  else []
termination_by (e + 1 - cur).toNat
decreasing_by simp_wf; omega

/-- generate_date_range, textually identical in src/lottery_analyzer.py and
src/lottery_utils.py: every Saturday between start and end inclusive,
ascending.  A start after the end makes the while loop body never run. -/
def generate_date_range (start_date end_date : ℤ) : List ℤ :=
  genLoop end_date start_date

/-- Date probed at step k of the open-ended backward walk of
fetch_all_available_data: the walk first steps to the Saturday strictly
before the run date and then keeps stepping back seven days. -/
def probe_date (today : ℤ) (k : ℕ) : ℤ := get_previous_saturday today - 7 * k

/-- LotteryResult of src/lottery_analyzer.py, one outcome per probed date. -/
structure LotteryResult where
  date : ℤ
  numero : String
  prize_info : String
  has_prize : Bool
  prize_amount : ℚ
  ticket_cost : ℚ
deriving DecidableEq, Repr

/-- LotteryAnalysis of src/lottery_analyzer.py, the aggregate of one run. -/
structure LotteryAnalysis where
  numero : String
  total_tickets : ℕ
  total_spent : ℚ
  total_won : ℚ
  net_profit : ℚ
  win_rate : ℚ
  biggest_prize : ℚ
  last_win_date : Option ℤ
  results : List LotteryResult
deriving DecidableEq, Repr

/-- Prize region of a fetched page: the span with class text-premio, as the
markup collaborator hands it to the code.  detText is the raw text of the
nested div with class text-premio-det when that div exists; fullText is the
text of the whole span with line-break tags replaced by spaces. -/
structure PrizeSpan where
  detText : Option String
  fullText : String
deriving DecidableEq, Repr

/-- Fetched document, reduced to the fields the code reads from it. -/
structure LotteryPage where
  title : Option String
  prizeSpan : Option PrizeSpan
deriving DecidableEq, Repr

/-- Outcome of the HTTP collaborator for one request: the three
requests.RequestException conditions the code catches (timeout, a non-2xx
status raised by raise_for_status, connection failure) or a parsed page. -/
inductive FetchResponse where
  | timeout
  | httpError
  | connectionError
  | ok (page : LotteryPage)
deriving DecidableEq, Repr

/-- Keyword blocklist matched against the lower-cased page title. -/
def errorKeywords : List String := ["error", "no encontrado", "no disponible", "404"]

/-- Title check shared by both fetchers: any blocklist keyword in the
lower-cased title text means the date has no data. -/
def titleIndicatesNoData (t : String) : Bool :=
  errorKeywords.any (fun k => strContains (pyLower t) k)

/-- get_ticket_cost, identical in both files: Saturday tickets cost 6 euros. -/
def get_ticket_cost (_date : ℤ) : ℚ := 6

namespace LotteryAnalyzer

/-- Prize text chosen by fetch_lottery_data_for_date of
src/lottery_analyzer.py: when the nested text-premio-det div exists its text
alone is kept (whitespace collapsed); otherwise the full span text with
line breaks as spaces, stripped. -/
def chosen_prize_text (span : PrizeSpan) : String :=
  match span.detText with
  | some det => normWs det
  | none => pyStrip span.fullText

/-- fetch_lottery_data_for_date of src/lottery_analyzer.py.  The HTTP
request and the markup parsing are collaborators, so the function is
parameterized by the response they produce for this (numero, fecha). -/
def fetch_lottery_data_for_date (numero : String) (fecha : ℤ) (resp : FetchResponse) :
    Option LotteryResult :=
  match resp with
  | .timeout => none
  | .httpError => none
  | .connectionError => none
  | .ok page =>
    if (match page.title with
        | some t => titleIndicatesNoData t
        | none => false) then none
    else
      match page.prizeSpan with
      | none => none
      | some span =>
        let prize_text := chosen_prize_text span
        if prize_text = "" || (pyStrip prize_text).length < 5 then none
        else
          some
            { date := fecha
              numero := numero
              prize_info := prize_text
              has_prize := !strContains (pyLower prize_text) noPrizeMarker
              prize_amount := parse_prize_amount prize_text
              ticket_cost := get_ticket_cost fecha }

end LotteryAnalyzer

namespace LotteryUtils

/-- Lottery data dict returned by fetch_lottery_data of src/lottery_utils.py. -/
structure LotteryData where
  numero : String
  fecha : ℤ
  prize_info : String
  has_prize : Bool
  prize_amount : ℚ
  ticket_cost : ℚ
deriving DecidableEq, Repr

/-- fetch_lottery_data of src/lottery_utils.py.  Both branches of the
text-premio-det test extract the same thing: the FULL span text with line
breaks replaced by spaces, stripped.  The url field of the dict is the
request url itself and is omitted here. -/
def fetch_lottery_data (numero : String) (fecha : ℤ) (resp : FetchResponse) :
    Option LotteryData :=
  match resp with
  | .timeout => none
  | .httpError => none
  | .connectionError => none
  | .ok page =>
    if (match page.title with
        | some t => titleIndicatesNoData t
        | none => false) then none
    else
      match page.prizeSpan with
      | none => none
      | some span =>
        let prize_text := pyStrip span.fullText
        if prize_text = "" || (pyStrip prize_text).length < 5 then none
        else
          some
            { numero := numero
              fecha := fecha
              prize_info := prize_text
              has_prize := !strContains (pyLower prize_text) noPrizeMarker
              prize_amount := parse_prize_amount prize_text
              ticket_cost := get_ticket_cost fecha }

end LotteryUtils

namespace LotteryAnalyzer

/-- Running accumulator of the aggregation loops: the local variables
results, total_spent, total_won, wins, biggest_prize, last_win_date. -/
structure AggState where
  results : List LotteryResult
  total_spent : ℚ
  total_won : ℚ
  wins : ℕ
  biggest_prize : ℚ
  last_win_date : Option ℤ
deriving DecidableEq, Repr

/-- Initial accumulator of either loop. -/
def initState : AggState := ⟨[], 0, 0, 0, 0, none⟩

/-- Body of either loop for a successful fetch on the given loop date:
append the result, add its cost, and on a win add the amount, bump wins,
record this date as last_win_date and take the running max prize. -/
def stepResult (st : AggState) (date : ℤ) (r : LotteryResult) : AggState :=
  { results := st.results ++ [r]
    total_spent := st.total_spent + r.ticket_cost
    total_won := if r.has_prize then st.total_won + r.prize_amount else st.total_won
    wins := if r.has_prize then st.wins + 1 else st.wins
    biggest_prize := if r.has_prize then max st.biggest_prize r.prize_amount
      else st.biggest_prize
    last_win_date := if r.has_prize then some date else st.last_win_date }

/-- Final LotteryAnalysis built from the accumulator, shared by both entry
points: win_rate is wins / len(results) * 100 guarded by `if results`. -/
def mkAnalysis (numero : String) (st : AggState) : LotteryAnalysis :=
  { numero := numero
    total_tickets := st.results.length
    total_spent := st.total_spent
    total_won := st.total_won
    net_profit := st.total_won - st.total_spent
    win_rate := if st.results = [] then 0
      else ((st.wins : ℚ) / (st.results.length : ℚ)) * 100
    biggest_prize := st.biggest_prize
    last_win_date := st.last_win_date
    results := st.results }

/-- For-loop of analyze_lottery_history over the Saturday list, with the
consecutive_no_data counter (threshold 5) and the accumulator.  The Bool
records whether the loop ended through the break. -/
def analyzeLoop (O : ℤ → Option LotteryResult) :
    List ℤ → ℕ → AggState → AggState × Bool
  | [], _, st => (st, false)
  | d :: ds, c, st =>
    match O d with
    | some r => analyzeLoop O ds 0 (stepResult st d r)
    | none =>
      if c + 1 ≥ 5 then (st, true)
      else analyzeLoop O ds (c + 1) st

/-- analyze_lottery_history of src/lottery_analyzer.py, parameterized by the
oracle O giving fetch_lottery_data_for_date(numero, date) for each date. -/
def analyze_lottery_history (O : ℤ → Option LotteryResult) (numero : String)
    (start_date end_date : ℤ) : LotteryAnalysis :=
  mkAnalysis numero (analyzeLoop O (generate_date_range start_date end_date) 0 initState).1

/-- While-loop of fetch_all_available_data: while consecutive_no_data < 10,
step current to the previous Saturday and probe it.  The loop has no other
exit, so it is modelled with fuel: one unit per check of the while
condition; running out of fuel yields none (the Python loop would still be
running), the regular exit yields the accumulator. -/
def fetchAllLoop (O : ℤ → Option LotteryResult) :
    ℤ → ℕ → AggState → ℕ → Option AggState
  | _, _, _, 0 => none
  | cur, c, st, fuel + 1 =>
    if c < 10 then
      match O (get_previous_saturday cur) with
      | some r =>
        fetchAllLoop O (get_previous_saturday cur) 0
          (stepResult st (get_previous_saturday cur) r) fuel
      | none => fetchAllLoop O (get_previous_saturday cur) (c + 1) st fuel
    else some st

/-- fetch_all_available_data of src/lottery_analyzer.py, parameterized by
the fetch oracle, the run date and the fuel bounding the loop. -/
def fetch_all_available_data (O : ℤ → Option LotteryResult) (numero : String)
    (today : ℤ) (fuel : ℕ) : Option LotteryAnalysis :=
  (fetchAllLoop O today 0 initState fuel).map (mkAnalysis numero)

/-- Folding a list of (loop date, outcome) pairs through the loop body,
used to state what both loops accumulate. -/
def foldPairs (st : AggState) (l : List (ℤ × LotteryResult)) : AggState :=
  l.foldl (fun s p => stepResult s p.1 p.2) st

end LotteryAnalyzer

/-- Stopping behaviour of a sequential walk over a list of per-date failure
flags (true = FetchFailure): carry the consecutive-failure counter, reset it
on success, and report a stop once it reaches N. -/
def stopFlag (N : ℕ) : List Bool → ℕ → Bool
  | [], _ => false
  | b :: t, c => if b then (if c + 1 ≥ N then true else stopFlag N t (c + 1)) else stopFlag N t 0

/-! Concrete fixtures used to instantiate the results below: a fetch oracle
is a function giving the per-date fetch outcome, standing for
fetch_lottery_data_for_date applied to whatever the remote source returns. -/

/-- Fixture outcome: a 500-euro win on the given date. -/
def resultWin (d : ℤ) : LotteryResult :=
  { date := d, numero := "11111", prize_info := "Premio de 500€", has_prize := true
    prize_amount := 500, ticket_cost := 6 }

/-- Fixture outcome: no prize on the given date. -/
def resultLose (d : ℤ) : LotteryResult :=
  { date := d, numero := "11111", prize_info := "El número 11111 no tiene premio"
    has_prize := false, prize_amount := 0, ticket_cost := 6 }

/-- Fixture oracle: data exists (without a prize) for every Saturday from
day -9 on, and no date before that has data. -/
def oracleThree (d : ℤ) : Option LotteryResult :=
  if d ≥ -9 then some (resultLose d) else none

/-- Fixture oracle: wins on days 5 and -2, no other date has data. -/
def oracleTwoWins (d : ℤ) : Option LotteryResult :=
  if d = 5 ∨ d = -2 then some (resultWin d) else none

/-- Fixture oracle: no date has data. -/
def oracleNone : ℤ → Option LotteryResult := fun _ => none

/-- Fixture page whose prize region has a nested text-premio-det sub-element
announcing a win while the full region text carries the no-prize marker. -/
def pageDetMismatch : LotteryPage :=
  { title := some "Lotería Nacional del sábado"
    prizeSpan := some
      { detText := some "Premio especial de 100€"
        fullText := "El número 11111 no tiene premio en el sorteo" } }

/-! Basic facts about the date arithmetic. -/

/-- The previous Saturday is strictly in the past, even when the given day is
itself a Saturday. -/
lemma get_previous_saturday_lt (d : ℤ) : get_previous_saturday d < d := by
  unfold get_previous_saturday weekday pymod
  split <;> omega

/-- The previous Saturday falls on the drawing weekday. -/
lemma weekday_get_previous_saturday (d : ℤ) : weekday (get_previous_saturday d) = 5 := by
  unfold get_previous_saturday weekday pymod
  split <;> omega

/-- No Saturday lies strictly between a day and its previous Saturday. -/
lemma get_previous_saturday_greatest {d s : ℤ} (hs : weekday s = 5) (hlt : s < d) :
    s ≤ get_previous_saturday d := by
  unfold weekday pymod at hs
  unfold get_previous_saturday weekday pymod
  split <;> omega

/-- Stepping back from a Saturday goes back exactly one week. -/
lemma get_previous_saturday_of_sat {d : ℤ} (hd : weekday d = 5) :
    get_previous_saturday d = d - 7 := by
  unfold weekday pymod at hd
  unfold get_previous_saturday weekday pymod
  split <;> omega

/-- Membership in the range loop: exactly the Saturdays from the current day
to the end day inclusive. -/
lemma mem_genLoop {e cur d : ℤ} :
    d ∈ genLoop e cur ↔ cur ≤ d ∧ d ≤ e ∧ weekday d = 5 := by
  induction cur using genLoop.induct e with
  | case1 cur hle ih =>
    rw [genLoop, if_pos hle]
    by_cases hw : weekday cur = 5
    · rw [if_pos hw]
      simp only [List.cons_append, List.nil_append, List.mem_cons, ih]
      constructor
      · rintro (h | h)
        · subst h; exact ⟨le_refl _, hle, hw⟩
        · exact ⟨by omega, h.2.1, h.2.2⟩
      · rintro ⟨h1, h2, h3⟩
        by_cases hd : d = cur
        · exact Or.inl hd
        · exact Or.inr ⟨by omega, h2, h3⟩
    · rw [if_neg hw]
      simp only [List.nil_append, ih]
      constructor
      · rintro ⟨h1, h2, h3⟩; exact ⟨by omega, h2, h3⟩
      · rintro ⟨h1, h2, h3⟩
        refine ⟨?_, h2, h3⟩
        rcases eq_or_lt_of_le h1 with h | h
        · subst h; exact absurd h3 hw
        · omega
  | case2 cur hle =>
    rw [genLoop, if_neg hle]
    simp only [List.not_mem_nil, false_iff]
    rintro ⟨h1, h2, _⟩
    omega

/-- The range loop yields strictly increasing dates. -/
lemma genLoop_sorted (e cur : ℤ) : (genLoop e cur).Pairwise (· < ·) := by
  induction cur using genLoop.induct e with
  | case1 cur hle ih =>
    rw [genLoop, if_pos hle]
    by_cases hw : weekday cur = 5
    · rw [if_pos hw]
      simp only [List.cons_append, List.nil_append]
      refine List.Pairwise.cons ?_ ih
      intro x hx
      have := (@mem_genLoop e (cur + 1) x).mp hx
      omega
    · rw [if_neg hw]
      simpa using ih
  | case2 cur hle =>
    rw [genLoop, if_neg hle]
    exact List.Pairwise.nil

/-- With the start after the end, the while loop never runs. -/
lemma generate_date_range_nil {s e : ℤ} (h : e < s) : generate_date_range s e = [] := by
  unfold generate_date_range
  rw [genLoop, if_neg (by omega)]

/-- Closed form of the range loop, used to evaluate concrete ranges: the
Saturdays filtered out of the consecutive days from the current one to the
end. -/
lemma genLoop_eq_filter (e : ℤ) : ∀ cur : ℤ,
    genLoop e cur
      = ((List.range (e + 1 - cur).toNat).map (fun k : ℕ => cur + (k : ℤ))).filter
          (fun d => weekday d = 5) := by
  intro cur0
  induction cur0 using genLoop.induct e with
  | case1 cur hle ih =>
    rw [genLoop, if_pos hle, ih]
    have hn : (e + 1 - cur).toNat = (e + 1 - (cur + 1)).toNat + 1 := by omega
    rw [hn, List.range_succ_eq_map]
    simp only [List.map_cons, List.map_map, List.filter_cons]
    have hhead : cur + ((0 : ℕ) : ℤ) = cur := by norm_num
    have hfun : List.map ((fun k : ℕ => cur + (k : ℤ)) ∘ Nat.succ)
          (List.range (e + 1 - (cur + 1)).toNat)
        = List.map (fun k : ℕ => (cur + 1) + (k : ℤ))
          (List.range (e + 1 - (cur + 1)).toNat) := by
      refine List.map_congr_left ?_
      intro k _
      simp only [Function.comp]
      push_cast
      ring
    rw [hfun, hhead]
    by_cases hw : weekday cur = 5
    · simp [hw]
    · simp [hw]
  | case2 cur hle =>
    rw [genLoop, if_neg hle]
    have hn : (e + 1 - cur).toNat = 0 := by omega
    rw [hn]
    simp

/-! Facts about the shared folding of successful outcomes. -/

namespace LotteryAnalyzer

lemma foldPairs_nil (st : AggState) : foldPairs st [] = st := rfl

lemma foldPairs_cons (st : AggState) (p : ℤ × LotteryResult) (l : List (ℤ × LotteryResult)) :
    foldPairs st (p :: l) = foldPairs (stepResult st p.1 p.2) l := rfl

/-- The fold appends exactly the fetched outcomes, in probe order. -/
lemma foldPairs_results (l : List (ℤ × LotteryResult)) :
    ∀ st : AggState, (foldPairs st l).results = st.results ++ l.map (fun p => p.2) := by
  induction l with
  | nil => intro st; simp [foldPairs_nil]
  | cons p t ih =>
    intro st
    rw [foldPairs_cons, ih]
    simp [stepResult]

/-- The fold adds exactly the outcomes' ticket costs to total_spent. -/
lemma foldPairs_spent (l : List (ℤ × LotteryResult)) :
    ∀ st : AggState,
      (foldPairs st l).total_spent
        = st.total_spent + (l.map (fun p => p.2.ticket_cost)).sum := by
  induction l with
  | nil => intro st; simp [foldPairs_nil]
  | cons p t ih =>
    intro st
    rw [foldPairs_cons, ih]
    simp [stepResult]
    ring

/-- The for-loop of analyze_lottery_history is the fold of the successful
probes: the probed dates that succeed form a sublist of the input dates, in
order, and each outcome is what the oracle returned for its date. -/
lemma analyzeLoop_spec (O : ℤ → Option LotteryResult) (ds : List ℤ) :
    ∀ (c : ℕ) (st : AggState), ∃ l : List (ℤ × LotteryResult),
      (analyzeLoop O ds c st).1 = foldPairs st l ∧
      (∀ p ∈ l, O p.1 = some p.2) ∧
      List.Sublist (l.map Prod.fst) ds := by
  induction ds with
  | nil =>
    intro c st
    exact ⟨[], rfl, by simp, by simp⟩
  | cons d ds ih =>
    intro c st
    match hO : O d with
    | some r =>
      obtain ⟨l, h1, h2, h3⟩ := ih 0 (stepResult st d r)
      refine ⟨(d, r) :: l, ?_, ?_, ?_⟩
      · simpa [analyzeLoop, hO, foldPairs_cons] using h1
      · intro p hp
        rcases List.mem_cons.mp hp with h | h
        · subst h; exact hO
        · exact h2 p h
      · simpa using List.Sublist.cons₂ d h3
    | none =>
      by_cases hc : c + 1 ≥ 5
      · exact ⟨[], by simp [analyzeLoop, hO, hc, foldPairs_nil], by simp, by simp⟩
      · obtain ⟨l, h1, h2, h3⟩ := ih (c + 1) st
        refine ⟨l, ?_, h2, h3.cons d⟩
        simpa [analyzeLoop, hO, hc] using h1

/-- The while-loop of fetch_all_available_data, when it returns at all, is
the fold of the successful probes: each outcome is what the oracle returned
for its date, and the successful dates are strictly decreasing and all
strictly before the current date. -/
lemma fetchAllLoop_spec (O : ℤ → Option LotteryResult) :
    ∀ (fuel : ℕ) (cur : ℤ) (c : ℕ) (st st' : AggState),
      fetchAllLoop O cur c st fuel = some st' →
      ∃ l : List (ℤ × LotteryResult),
        st' = foldPairs st l ∧
        (∀ p ∈ l, O p.1 = some p.2) ∧
        (l.map Prod.fst).Pairwise (· > ·) ∧
        (∀ x ∈ l.map Prod.fst, x < cur) := by
  intro fuel
  induction fuel with
  | zero => intro cur c st st' h; simp [fetchAllLoop] at h
  | succ fuel ih =>
    intro cur c st st' h
    rw [fetchAllLoop] at h
    by_cases hc : c < 10
    · rw [if_pos hc] at h
      have hlt : get_previous_saturday cur < cur := get_previous_saturday_lt cur
      match hO : O (get_previous_saturday cur) with
      | some r =>
        simp only [hO] at h
        obtain ⟨l, h1, h2, h3, h4⟩ := ih _ _ _ _ h
        refine ⟨(get_previous_saturday cur, r) :: l, ?_, ?_, ?_, ?_⟩
        · simpa [foldPairs_cons] using h1
        · intro p hp
          rcases List.mem_cons.mp hp with hh | hh
          · subst hh; exact hO
          · exact h2 p hh
        · refine List.Pairwise.cons ?_ h3
          intro x hx
          exact h4 x hx
        · intro x hx
          rcases List.mem_cons.mp hx with hh | hh
          · subst hh; exact hlt
          · exact lt_trans (h4 x hh) hlt
      | none =>
        simp only [hO] at h
        obtain ⟨l, h1, h2, h3, h4⟩ := ih _ _ _ _ h
        exact ⟨l, h1, h2, h3, fun x hx => lt_trans (h4 x hx) hlt⟩
    · rw [if_neg hc] at h
      exact ⟨[], by simpa using h.symm, by simp, by simp, by simp⟩

end LotteryAnalyzer

/-! Characterization of the per-date fetchers. -/

/-- Exactly the failure conditions of fetch_lottery_data_for_date produce the
FetchFailure signal None: a caught network error, an error-indicating title,
a missing prize region, or a chosen prize text that is empty or shorter than
five characters. -/
lemma analyzer_fetch_none_iff (numero : String) (fecha : ℤ) (resp : FetchResponse) :
    LotteryAnalyzer.fetch_lottery_data_for_date numero fecha resp = none ↔
      resp = .timeout ∨ resp = .httpError ∨ resp = .connectionError ∨
      ∃ page, resp = .ok page ∧
        ((∃ t, page.title = some t ∧ titleIndicatesNoData t = true) ∨
         page.prizeSpan = none ∨
         ∃ span, page.prizeSpan = some span ∧
           (LotteryAnalyzer.chosen_prize_text span = "" ∨
            (pyStrip (LotteryAnalyzer.chosen_prize_text span)).length < 5)) := by
  cases resp with
  | timeout => simp [LotteryAnalyzer.fetch_lottery_data_for_date]
  | httpError => simp [LotteryAnalyzer.fetch_lottery_data_for_date]
  | connectionError => simp [LotteryAnalyzer.fetch_lottery_data_for_date]
  | ok page =>
    obtain ⟨title, span⟩ := page
    simp only [LotteryAnalyzer.fetch_lottery_data_for_date]
    cases title with
    | none =>
      cases span with
      | none => simp
      | some sp =>
        simp only [Bool.false_eq_true, if_false]
        by_cases h1 : LotteryAnalyzer.chosen_prize_text sp = ""
        · simp [h1]
        · by_cases h2 : (pyStrip (LotteryAnalyzer.chosen_prize_text sp)).length < 5
          · simp [h1, h2]
          · simp [h1, h2]
    | some t =>
      by_cases ht : titleIndicatesNoData t
      · simp [ht]
      · simp only [ht, Bool.false_eq_true, if_false]
        cases span with
        | none => simp [ht]
        | some sp =>
          by_cases h1 : LotteryAnalyzer.chosen_prize_text sp = ""
          · simp [h1, ht]
          · by_cases h2 : (pyStrip (LotteryAnalyzer.chosen_prize_text sp)).length < 5
            · simp [h1, h2, ht]
            · simp [h1, h2, ht]

/-- Same characterization for fetch_lottery_data of src/lottery_utils.py,
whose chosen prize text is always the full span text, stripped. -/
lemma utils_fetch_none_iff (numero : String) (fecha : ℤ) (resp : FetchResponse) :
    LotteryUtils.fetch_lottery_data numero fecha resp = none ↔
      resp = .timeout ∨ resp = .httpError ∨ resp = .connectionError ∨
      ∃ page, resp = .ok page ∧
        ((∃ t, page.title = some t ∧ titleIndicatesNoData t = true) ∨
         page.prizeSpan = none ∨
         ∃ span, page.prizeSpan = some span ∧
           (pyStrip span.fullText = "" ∨ (pyStrip (pyStrip span.fullText)).length < 5)) := by
  cases resp with
  | timeout => simp [LotteryUtils.fetch_lottery_data]
  | httpError => simp [LotteryUtils.fetch_lottery_data]
  | connectionError => simp [LotteryUtils.fetch_lottery_data]
  | ok page =>
    obtain ⟨title, span⟩ := page
    simp only [LotteryUtils.fetch_lottery_data]
    cases title with
    | none =>
      cases span with
      | none => simp
      | some sp =>
        simp only [Bool.false_eq_true, if_false]
        by_cases h1 : pyStrip sp.fullText = ""
        · simp [h1]
        · by_cases h2 : (pyStrip (pyStrip sp.fullText)).length < 5
          · simp [h1, h2]
          · simp [h1, h2]
    | some t =>
      by_cases ht : titleIndicatesNoData t
      · simp [ht]
      · simp only [ht, Bool.false_eq_true, if_false]
        cases span with
        | none => simp [ht]
        | some sp =>
          by_cases h1 : pyStrip sp.fullText = ""
          · simp [h1, ht]
          · by_cases h2 : (pyStrip (pyStrip sp.fullText)).length < 5
            · simp [h1, h2, ht]
            · simp [h1, h2, ht]

/-- Every outcome fetch_lottery_data_for_date constructs carries the probed
date and the constant six-euro ticket cost. -/
lemma analyzer_fetch_fields {numero : String} {fecha : ℤ} {resp : FetchResponse}
    {r : LotteryResult}
    (h : LotteryAnalyzer.fetch_lottery_data_for_date numero fecha resp = some r) :
    r.date = fecha ∧ r.ticket_cost = 6 := by
  cases resp with
  | timeout => simp [LotteryAnalyzer.fetch_lottery_data_for_date] at h
  | httpError => simp [LotteryAnalyzer.fetch_lottery_data_for_date] at h
  | connectionError => simp [LotteryAnalyzer.fetch_lottery_data_for_date] at h
  | ok page =>
    obtain ⟨title, span⟩ := page
    simp only [LotteryAnalyzer.fetch_lottery_data_for_date] at h
    split at h
    · exact absurd h (by simp)
    · cases span with
      | none => exact absurd h (by simp)
      | some sp =>
        simp only at h
        split at h
        · exact absurd h (by simp)
        · rw [Option.some_inj] at h
          subst h
          exact ⟨rfl, rfl⟩

/-! Machinery for the consecutive-failure stopping rule. -/

/-- A shorter all-failures block is a prefix whenever a longer one is. -/
lemma replicate_true_pre_mono {k m : ℕ} {l : List Bool} (hkm : k ≤ m)
    (h : List.replicate m true <+: l) : List.replicate k true <+: l := by
  obtain ⟨t, ht⟩ := h
  refine ⟨List.replicate (m - k) true ++ t, ?_⟩
  rw [← List.append_assoc, ← List.replicate_add]
  rw [show k + (m - k) = m by omega]
  exact ht

/-- The walk with incoming counter c stops exactly when the flags start with
N - c straight failures or contain a block of N straight failures anywhere. -/
lemma stopFlag_iff (N : ℕ) : ∀ (l : List Bool) (c : ℕ), c < N →
    (stopFlag N l c = true ↔
      List.replicate (N - c) true <+: l ∨ List.replicate N true <:+: l) := by
  intro l
  induction l with
  | nil =>
    intro c hc
    simp only [stopFlag, List.prefix_nil, List.infix_nil, List.replicate_eq_nil_iff]
    constructor
    · intro h; exact absurd h (by simp)
    · rintro (h | h) <;> omega
  | cons b t ih =>
    intro c hc
    cases b with
    | true =>
      by_cases hc1 : c + 1 ≥ N
      · have hNc : N - c = 1 := by omega
        simp only [stopFlag, if_pos hc1, if_pos rfl, hNc]
        constructor
        · intro _
          exact Or.inl ⟨t, rfl⟩
        · intro _; rfl
      · have hrec : stopFlag N (true :: t) c = stopFlag N t (c + 1) := by
          simp [stopFlag, hc1]
        rw [hrec, ih (c + 1) (by omega)]
        have e1 : List.replicate (N - c) true <+: true :: t ↔
            List.replicate (N - (c + 1)) true <+: t := by
          rw [show N - c = (N - (c + 1)) + 1 by omega, List.replicate_succ,
            List.cons_prefix_cons]
          simp
        have e2 : List.replicate N true <+: true :: t ↔
            List.replicate (N - 1) true <+: t := by
          rw [show N = (N - 1) + 1 by omega, List.replicate_succ, List.cons_prefix_cons]
          simp only [true_and]
          rw [show (N - 1) + 1 - 1 = N - 1 by omega]
        rw [List.infix_cons_iff, e1, e2]
        constructor
        · rintro (h | h)
          · exact Or.inl h
          · exact Or.inr (Or.inr h)
        · rintro (h | h | h)
          · exact Or.inl h
          · exact Or.inl (replicate_true_pre_mono (by omega) h)
          · exact Or.inr h
    | false =>
      have hrec : stopFlag N (false :: t) c = stopFlag N t 0 := by simp [stopFlag]
      rw [hrec, ih 0 (by omega)]
      have e1 : ¬ (List.replicate (N - c) true <+: false :: t) := by
        rw [show N - c = (N - c - 1) + 1 by omega, List.replicate_succ,
          List.cons_prefix_cons]
        simp
      have e2 : ¬ (List.replicate N true <+: false :: t) := by
        rw [show N = (N - 1) + 1 by omega, List.replicate_succ, List.cons_prefix_cons]
        simp
      rw [List.infix_cons_iff]
      rw [Nat.sub_zero]
      constructor
      · rintro (h | h)
        · exact Or.inr (Or.inr (h.isInfix))
        · exact Or.inr (Or.inr h)
      · rintro (h | h | h)
        · exact absurd h e1
        · exact absurd h e2
        · exact Or.inr h

namespace LotteryAnalyzer

/-- The break decision of the for-loop of analyze_lottery_history depends
only on the per-date failure flags, through stopFlag with threshold 5. -/
lemma analyzeLoop_snd (O : ℤ → Option LotteryResult) (ds : List ℤ) :
    ∀ (c : ℕ) (st : AggState),
      (analyzeLoop O ds c st).2 = stopFlag 5 (ds.map fun d => (O d).isNone) c := by
  induction ds with
  | nil => intro c st; simp [analyzeLoop, stopFlag]
  | cons d ds ih =>
    intro c st
    match hO : O d with
    | some r =>
      simp only [analyzeLoop, hO, List.map_cons, Option.isNone_some, stopFlag,
        Bool.false_eq_true, if_false]
      exact ih 0 (stepResult st d r)
    | none =>
      by_cases hc : c + 1 ≥ 5
      · simp [analyzeLoop, hO, hc, stopFlag]
      · simp only [analyzeLoop, hO, List.map_cons, Option.isNone_none, stopFlag,
          if_true, if_neg hc]
        exact ih (c + 1) st

/-- The while-loop of fetch_all_available_data returns (rather than running
out of fuel) exactly as decided by stopFlag with threshold 10 over the
failure flags of the first fuel - 1 probed Saturdays. -/
lemma fetchAllLoop_isSome (O : ℤ → Option LotteryResult) :
    ∀ (fuel : ℕ) (cur : ℤ) (c : ℕ) (st : AggState), c < 10 →
      ((fetchAllLoop O cur c st fuel).isSome =
        stopFlag 10
          (List.ofFn fun i : Fin (fuel - 1) =>
            (O (get_previous_saturday cur - 7 * ((i : ℕ) : ℤ))).isNone) c) := by
  intro fuel
  induction fuel with
  | zero =>
    intro cur c st hc
    simp [fetchAllLoop, stopFlag]
  | succ n ih =>
    intro cur c st hc
    match n with
    | 0 =>
      rw [fetchAllLoop, if_pos hc]
      cases hO : O (get_previous_saturday cur) <;>
        simp [hO, fetchAllLoop, stopFlag]
    | m + 1 =>
      have hflags :
          (List.ofFn fun i : Fin (m + 2 - 1) =>
            (O (get_previous_saturday cur - 7 * ((i : ℕ) : ℤ))).isNone) =
          (O (get_previous_saturday cur)).isNone ::
            (List.ofFn fun i : Fin (m + 1 - 1) =>
              (O (get_previous_saturday (get_previous_saturday cur)
                - 7 * ((i : ℕ) : ℤ))).isNone) := by
        rw [show m + 2 - 1 = (m + 1 - 1) + 1 by omega, List.ofFn_succ]
        congr 1
        · norm_num
        · refine congrArg List.ofFn ?_
          funext i
          rw [get_previous_saturday_of_sat (weekday_get_previous_saturday cur)]
          congr 2
          push_cast [Fin.val_succ]
          ring
      rw [hflags, fetchAllLoop, if_pos hc]
      match hO : O (get_previous_saturday cur) with
      | some r =>
        simp only [hO, Option.isNone_some, stopFlag, Bool.false_eq_true, if_false]
        exact ih (get_previous_saturday cur) 0 _ (by omega)
      | none =>
        simp only [hO, Option.isNone_none, stopFlag, if_true]
        by_cases hc1 : c + 1 ≥ 10
        · rw [if_pos hc1]
          rw [fetchAllLoop]
          have : ¬ (c + 1 < 10) := by omega
          have hceq : c + 1 = 10 := by omega
          rw [hceq]
          simp
        · rw [if_neg hc1]
          exact ih (get_previous_saturday cur) (c + 1) st (by omega)

end LotteryAnalyzer

/-! Facts about Python max as a left fold. -/

/-- The seed never exceeds the fold of max. -/
lemma le_foldl_max (t : List ℚ) : ∀ a : ℚ, a ≤ t.foldl max a := by
  induction t with
  | nil => intro a; simp
  | cons b t ih =>
    intro a
    rw [List.foldl_cons]
    exact le_trans (le_max_left a b) (ih (max a b))

/-- The fold of max is one of the seed or the elements. -/
lemma foldl_max_mem (t : List ℚ) : ∀ a : ℚ, t.foldl max a ∈ a :: t := by
  induction t with
  | nil => intro a; simp
  | cons b t ih =>
    intro a
    rw [List.foldl_cons]
    rcases List.mem_cons.mp (ih (max a b)) with h | h
    · rcases max_choice a b with hm | hm
      · rw [h, hm]; exact List.mem_cons_self _ _
      · rw [h, hm]; exact List.mem_cons_of_mem _ (List.mem_cons_self _ _)
    · exact List.mem_cons_of_mem _ (List.mem_cons_of_mem _ h)

/-- The fold of max bounds the seed and every element. -/
lemma foldl_max_le (t : List ℚ) : ∀ a x : ℚ, x ∈ a :: t → x ≤ t.foldl max a := by
  induction t with
  | nil =>
    intro a x hx
    rw [List.mem_singleton] at hx
    rw [hx]
    simp
  | cons b t ih =>
    intro a x hx
    rw [List.foldl_cons]
    rcases List.mem_cons.mp hx with h | h
    · rw [h]; exact le_trans (le_max_left a b) (le_foldl_max t (max a b))
    · rcases List.mem_cons.mp h with h2 | h2
      · rw [h2]; exact le_trans (le_max_right a b) (le_foldl_max t (max a b))
      · exact ih (max a b) x (List.mem_cons_of_mem _ h2)

/-! Evaluation of the prize parsers. -/

/-- When the no-prize guard fails and some token matched, the utils parser is
the fold-max of the token values. -/
lemma utils_parse_eq_pyMax {s : String}
    (h : (decide (s = "") || strContains (pyLower s) noPrizeMarker) = false)
    (hne : findEuroTokens s ≠ []) :
    LotteryUtils.parse_prize_amount s
      = pyMax ((findEuroTokens s).map (fun g => floatOfGroup g.toList)) := by
  unfold LotteryUtils.parse_prize_amount
  rw [if_neg (by simp_all), if_neg hne, if_neg (by simp [hne])]

/-- When the no-prize guard fails and some token matched, the analyzer parser
is the value of the FIRST token. -/
lemma analyzer_parse_eq_head {s : String} {g : String} {t : List String}
    (h : (decide (s = "") || strContains (pyLower s) noPrizeMarker) = false)
    (ht : findEuroTokens s = g :: t) :
    LotteryAnalyzer.parse_prize_amount s = floatOfGroup g.toList := by
  unfold LotteryAnalyzer.parse_prize_amount
  rw [if_neg (by simp_all), ht]

/-- Value of the captured group 1,000 with the comma read as a decimal point:
float(\x221.000\x22) is one, not one thousand. -/
lemma floatOfGroup_comma_example : floatOfGroup "1,000".toList = 1 := by
  have hsp : "1,000".toList.splitOn ',' = [['1'], ['0', '0', '0']] := by decide
  simp only [floatOfGroup, hsp]
  rw [show digitsToNat ['1'] = 1 from rfl, show digitsToNat ['0', '0', '0'] = 0 from rfl]
  norm_num

/-- Value of the captured group 50. -/
lemma floatOfGroup_50 : floatOfGroup "50".toList = 50 := by
  have hsp : "50".toList.splitOn ',' = [['5', '0']] := by decide
  simp only [floatOfGroup, hsp]
  rw [show digitsToNat ['5', '0'] = 50 from rfl]
  norm_num

/-- On the spec example text the utils parser yields 50. -/
lemma utils_parse_example :
    LotteryUtils.parse_prize_amount "Premios de 1,000€ y 50€" = 50 := by
  rw [utils_parse_eq_pyMax (by decide) (by decide)]
  rw [show findEuroTokens "Premios de 1,000€ y 50€" = ["1,000", "50"] from by decide]
  simp only [List.map_cons, List.map_nil, floatOfGroup_comma_example, floatOfGroup_50]
  simp only [pyMax, List.foldl_cons, List.foldl_nil]
  norm_num

/-- On the spec example text the analyzer parser yields 1. -/
lemma analyzer_parse_example :
    LotteryAnalyzer.parse_prize_amount "Premios de 1,000€ y 50€" = 1 := by
  rw [analyzer_parse_eq_head (by decide)
    (show findEuroTokens "Premios de 1,000€ y 50€" = "1,000" :: ["50"] from by decide)]
  exact floatOfGroup_comma_example

/-- C2, counterexample: on the text named by the claim neither parser yields
1000; the utils parser yields 50 and the analyzer parser yields 1, because
the comma of 1,000 is normalized to a decimal point before conversion. -/
theorem C2_counterexample :
    LotteryUtils.parse_prize_amount "Premios de 1,000€ y 50€" ≠ 1000 ∧
    LotteryAnalyzer.parse_prize_amount "Premios de 1,000€ y 50€" ≠ 1000 ∧
    LotteryUtils.parse_prize_amount "Premios de 1,000€ y 50€" = 50 ∧
    LotteryAnalyzer.parse_prize_amount "Premios de 1,000€ y 50€" = 1 := by
  refine ⟨?_, ?_, utils_parse_example, analyzer_parse_example⟩
  · rw [utils_parse_example]; norm_num
  · rw [analyzer_parse_example]; norm_num

/-- C2, amended: for a prize text without the no-prize marker and with at
least one currency token, parse_prize_amount of lottery_utils.py returns the
maximum of the parsed token values with the comma read as a decimal point,
so the text Premios de 1,000€ y 50€ yields 50 (the token 1,000 parses as 1);
parse_prize_amount of lottery_analyzer.py instead returns the value of the
first token, which yields 1 on that text. -/
theorem C2_utils_takes_max :
    (∀ s : String, strContains (pyLower s) noPrizeMarker = false →
      findEuroTokens s ≠ [] →
      (LotteryUtils.parse_prize_amount s
          ∈ (findEuroTokens s).map (fun g => floatOfGroup g.toList) ∧
       ∀ a ∈ (findEuroTokens s).map (fun g => floatOfGroup g.toList),
         a ≤ LotteryUtils.parse_prize_amount s)) ∧
    LotteryUtils.parse_prize_amount "Premios de 1,000€ y 50€" = 50 ∧
    LotteryAnalyzer.parse_prize_amount "Premios de 1,000€ y 50€" = 1 := by
  refine ⟨?_, utils_parse_example, analyzer_parse_example⟩
  intro s hm hne
  have hs : s ≠ "" := by
    intro he
    exact hne (by rw [he]; rfl)
  rw [utils_parse_eq_pyMax (by simp [hs, hm]) hne]
  obtain ⟨a, t, hlist⟩ :=
    List.exists_cons_of_ne_nil (by simpa using hne :
      (findEuroTokens s).map (fun g => floatOfGroup g.toList) ≠ [])
  rw [hlist]
  simp only [pyMax]
  exact ⟨foldl_max_mem t a, foldl_max_le t a⟩

/-- C2, witness: the theorem applied to the text Premio de 500€. -/
theorem C2_utils_takes_max_witness :
    LotteryUtils.parse_prize_amount "Premio de 500€"
        ∈ (findEuroTokens "Premio de 500€").map (fun g => floatOfGroup g.toList) ∧
    floatOfGroup "500".toList ≤ LotteryUtils.parse_prize_amount "Premio de 500€" :=
  ⟨(C2_utils_takes_max.1 "Premio de 500€" (by decide) (by decide)).1,
   (C2_utils_takes_max.1 "Premio de 500€" (by decide) (by decide)).2 _
     (by simp [show findEuroTokens "Premio de 500€" = ["500"] from by decide])⟩

/-- C5, counterexample: on a start after the end (day 30 down to day 0) the
range enumerator does not fail: its while loop never runs and it returns the
empty list, so no InvalidRangeError exists anywhere in the code. -/
theorem C5_counterexample : generate_date_range 30 0 = [] :=
  generate_date_range_nil (by norm_num)

/-- C5, amended: for start > end generate_date_range returns the empty list
without raising anything; for start <= end it returns exactly the
drawing-weekday (Saturday) dates within the closed range, strictly
ascending. -/
theorem C5_range_behaviour : ∀ s e : ℤ,
    (e < s → generate_date_range s e = []) ∧
    (∀ d : ℤ, d ∈ generate_date_range s e ↔ s ≤ d ∧ d ≤ e ∧ weekday d = 5) ∧
    (generate_date_range s e).Pairwise (· < ·) :=
  fun s e =>
    ⟨fun h => generate_date_range_nil h, fun _ => mem_genLoop, genLoop_sorted e s⟩

/-- C5, witness: the theorem applied to the ranges 30..0 and 0..31. -/
theorem C5_range_behaviour_witness :
    generate_date_range 30 0 = [] ∧
    (5 ∈ generate_date_range 0 31 ↔ (0 ≤ (5 : ℤ) ∧ (5 : ℤ) ≤ 31 ∧ weekday 5 = 5)) ∧
    (generate_date_range 0 31).Pairwise (· < ·) :=
  ⟨(C5_range_behaviour 30 0).1 (by norm_num), (C5_range_behaviour 0 31).2.1 5,
   (C5_range_behaviour 0 31).2.2⟩

/-- C3, counterexample: on a page whose prize region nests a win-detail
sub-element, fetch_lottery_data_for_date of lottery_analyzer.py classifies
the sub-element text alone and reports a win even though the full region
text carries the no-prize marker (which fetch_lottery_data of
lottery_utils.py, classifying the full text, reports as no win). -/
theorem C3_counterexample :
    ((LotteryAnalyzer.fetch_lottery_data_for_date "11111" 5 (.ok pageDetMismatch)).map
      (fun r => r.has_prize)) = some true ∧
    ((LotteryUtils.fetch_lottery_data "11111" 5 (.ok pageDetMismatch)).map
      (fun r => r.has_prize)) = some false ∧
    strContains (pyLower "El número 11111 no tiene premio en el sorteo") noPrizeMarker
      = true := by decide

/-- C3, amended: fetch_lottery_data of lottery_utils.py computes both the
win decision and the amount over the full flattened prize-region text; but
fetch_lottery_data_for_date of lottery_analyzer.py, whenever the nested
win-detail sub-element exists, computes both over that sub-element text
alone (whitespace-collapsed), not over the full region text. -/
theorem C3_full_region_classification :
    ∀ (numero : String) (fecha : ℤ) (page : LotteryPage) (span : PrizeSpan),
      page.prizeSpan = some span →
      (∀ r, LotteryUtils.fetch_lottery_data numero fecha (.ok page) = some r →
        r.prize_info = pyStrip span.fullText ∧
        r.has_prize = !strContains (pyLower (pyStrip span.fullText)) noPrizeMarker ∧
        r.prize_amount = LotteryUtils.parse_prize_amount (pyStrip span.fullText)) ∧
      (∀ det r, span.detText = some det →
        LotteryAnalyzer.fetch_lottery_data_for_date numero fecha (.ok page) = some r →
        r.prize_info = normWs det ∧
        r.has_prize = !strContains (pyLower (normWs det)) noPrizeMarker ∧
        r.prize_amount = LotteryAnalyzer.parse_prize_amount (normWs det)) := by
  intro numero fecha page span hsp
  constructor
  · intro r h
    simp only [LotteryUtils.fetch_lottery_data] at h
    split at h
    · exact absurd h (by simp)
    · rw [hsp] at h
      simp only at h
      split at h
      · exact absurd h (by simp)
      · rw [Option.some_inj] at h
        subst h
        exact ⟨rfl, rfl, rfl⟩
  · intro det r hdet h
    simp only [LotteryAnalyzer.fetch_lottery_data_for_date] at h
    split at h
    · exact absurd h (by simp)
    · rw [hsp] at h
      simp only at h
      split at h
      · exact absurd h (by simp)
      · rw [Option.some_inj] at h
        subst h
        refine ⟨?_, ?_, ?_⟩ <;>
          simp [LotteryAnalyzer.chosen_prize_text, hdet]

/-- C3, witness: the theorem applied to the mismatching fixture page, whose
region text classifies as no-win for utils and whose detail text classifies
as a win for the analyzer. -/
theorem C3_full_region_classification_witness :
    (∀ r, LotteryUtils.fetch_lottery_data "11111" 5 (.ok pageDetMismatch) = some r →
      r.has_prize
        = !strContains
            (pyLower (pyStrip "El número 11111 no tiene premio en el sorteo"))
            noPrizeMarker) ∧
    (∀ r, LotteryAnalyzer.fetch_lottery_data_for_date "11111" 5 (.ok pageDetMismatch)
        = some r →
      r.has_prize
        = !strContains (pyLower (normWs "Premio especial de 100€")) noPrizeMarker) :=
  ⟨fun r hr =>
    ((C3_full_region_classification "11111" 5 pageDetMismatch
      ⟨some "Premio especial de 100€", "El número 11111 no tiene premio en el sorteo"⟩
      rfl).1 r hr).2.1,
   fun r hr =>
    ((C3_full_region_classification "11111" 5 pageDetMismatch
      ⟨some "Premio especial de 100€", "El número 11111 no tiene premio en el sorteo"⟩
      rfl).2 "Premio especial de 100€" r rfl hr).2.1⟩

/-- C7: both per-date fetchers are total functions into Option, and they
return the FetchFailure signal None exactly on the enumerated failure
conditions: a caught network error (timeout, bad status, connection
failure), an error-indicating page title, a missing prize region, or a
chosen prize text that is empty or shorter than five characters; on every
other input they return an Outcome. -/
theorem C7_failure_folding :
    ∀ (numero : String) (fecha : ℤ) (resp : FetchResponse),
      (LotteryAnalyzer.fetch_lottery_data_for_date numero fecha resp = none ↔
        resp = .timeout ∨ resp = .httpError ∨ resp = .connectionError ∨
        ∃ page, resp = .ok page ∧
          ((∃ t, page.title = some t ∧ titleIndicatesNoData t = true) ∨
           page.prizeSpan = none ∨
           ∃ span, page.prizeSpan = some span ∧
             (LotteryAnalyzer.chosen_prize_text span = "" ∨
              (pyStrip (LotteryAnalyzer.chosen_prize_text span)).length < 5))) ∧
      (LotteryUtils.fetch_lottery_data numero fecha resp = none ↔
        resp = .timeout ∨ resp = .httpError ∨ resp = .connectionError ∨
        ∃ page, resp = .ok page ∧
          ((∃ t, page.title = some t ∧ titleIndicatesNoData t = true) ∨
           page.prizeSpan = none ∨
           ∃ span, page.prizeSpan = some span ∧
             (pyStrip span.fullText = "" ∨
              (pyStrip (pyStrip span.fullText)).length < 5))) :=
  fun numero fecha resp =>
    ⟨analyzer_fetch_none_iff numero fecha resp, utils_fetch_none_iff numero fecha resp⟩

/-- C9: a run that yields zero outcomes still returns an Analysis, and its
win_rate is 0 because the guarded expression never divides by the zero
ticket count. -/
theorem C9_zero_outcomes_win_rate :
    (∀ (O : ℤ → Option LotteryResult) (numero : String) (s e : ℤ),
      (LotteryAnalyzer.analyze_lottery_history O numero s e).results = [] →
      (LotteryAnalyzer.analyze_lottery_history O numero s e).win_rate = 0) ∧
    (∀ (O : ℤ → Option LotteryResult) (numero : String) (today : ℤ) (fuel : ℕ)
        (a : LotteryAnalysis),
      LotteryAnalyzer.fetch_all_available_data O numero today fuel = some a →
      a.results = [] → a.win_rate = 0) := by
  constructor
  · intro O numero s e h
    simp only [LotteryAnalyzer.analyze_lottery_history, LotteryAnalyzer.mkAnalysis] at h ⊢
    rw [if_pos h]
  · intro O numero today fuel a ha h
    simp only [LotteryAnalyzer.fetch_all_available_data] at ha
    obtain ⟨st, hst, rfl⟩ := Option.map_eq_some'.mp ha
    simp only [LotteryAnalyzer.mkAnalysis] at h ⊢
    rw [if_pos h]

/-- C9, witness: the theorem applied to an all-failing oracle, over a range
with no Saturdays and over the open-ended walk. -/
theorem C9_zero_outcomes_win_rate_witness :
    (LotteryAnalyzer.analyze_lottery_history oracleNone "11111" 0 4).win_rate = 0 ∧
    (LotteryAnalyzer.mkAnalysis "11111" LotteryAnalyzer.initState).win_rate = 0 := by
  have hd : generate_date_range 0 4 = [] := by
    rw [generate_date_range, genLoop_eq_filter]
    decide
  constructor
  · refine C9_zero_outcomes_win_rate.1 oracleNone "11111" 0 4 ?_
    simp only [LotteryAnalyzer.analyze_lottery_history, LotteryAnalyzer.mkAnalysis, hd,
      LotteryAnalyzer.analyzeLoop, LotteryAnalyzer.initState]
  · exact C9_zero_outcomes_win_rate.2 oracleNone "11111" 10 11
      (LotteryAnalyzer.mkAnalysis "11111" LotteryAnalyzer.initState) rfl rfl

open LotteryAnalyzer in
/-- Results accumulated from the empty state are exactly the fetched
outcomes. -/
lemma foldPairs_init_results (l : List (ℤ × LotteryResult)) :
    (foldPairs initState l).results = l.map (fun p => p.2) := by
  rw [foldPairs_results]
  rfl

open LotteryAnalyzer in
/-- Spending accumulated from the empty state is exactly the outcomes' cost
sum. -/
lemma foldPairs_init_spent (l : List (ℤ × LotteryResult)) :
    (foldPairs initState l).total_spent = (l.map (fun p => p.2.ticket_cost)).sum := by
  rw [foldPairs_spent]
  simp [initState]

/-- A list of outcomes with the constant six-euro cost sums to six per
element. -/
lemma sum_map_cost_const : ∀ l : List LotteryResult, (∀ r ∈ l, r.ticket_cost = 6) →
    (l.map (fun r => r.ticket_cost)).sum = 6 * l.length := by
  intro l
  induction l with
  | nil => intro _; simp
  | cons r t ih =>
    intro h
    simp only [List.map_cons, List.sum_cons, List.length_cons]
    rw [h r (List.mem_cons_self r t), ih (fun x hx => h x (List.mem_cons_of_mem _ hx))]
    push_cast
    ring

/-- Dates of the fetched outcomes are the probed dates, given an oracle that
stamps each outcome with its date (which the real fetcher does). -/
lemma results_dates_eq (O : ℤ → Option LotteryResult)
    (hO : ∀ d r, O d = some r → r.date = d) (l : List (ℤ × LotteryResult))
    (hl : ∀ p ∈ l, O p.1 = some p.2) :
    (l.map (fun p => p.2)).map (fun r => r.date) = l.map Prod.fst := by
  rw [List.map_map]
  exact List.map_congr_left (fun p hp => hO p.1 p.2 (hl p hp))

open LotteryAnalyzer in
/-- C8: in both entry points total_tickets is the outcome count, total_spent
is the sum of the outcomes' ticket costs (six euros per outcome when the
oracle stamps the constant cost, i.e. six times the count), and net_profit
is exactly total_won minus total_spent; failed fetches contribute to
nothing. -/
theorem C8_totals :
    (∀ (O : ℤ → Option LotteryResult) (numero : String) (s e : ℤ),
      (analyze_lottery_history O numero s e).total_tickets
        = (analyze_lottery_history O numero s e).results.length ∧
      (analyze_lottery_history O numero s e).total_spent
        = ((analyze_lottery_history O numero s e).results.map
            (fun r => r.ticket_cost)).sum ∧
      (analyze_lottery_history O numero s e).net_profit
        = (analyze_lottery_history O numero s e).total_won
          - (analyze_lottery_history O numero s e).total_spent ∧
      ((∀ d r, O d = some r → r.ticket_cost = 6) →
        (analyze_lottery_history O numero s e).total_spent
          = 6 * (analyze_lottery_history O numero s e).results.length)) ∧
    (∀ (O : ℤ → Option LotteryResult) (numero : String) (today : ℤ) (fuel : ℕ)
        (a : LotteryAnalysis),
      fetch_all_available_data O numero today fuel = some a →
      (a.total_tickets = a.results.length ∧
       a.total_spent = (a.results.map (fun r => r.ticket_cost)).sum ∧
       a.net_profit = a.total_won - a.total_spent ∧
       ((∀ d r, O d = some r → r.ticket_cost = 6) →
         a.total_spent = 6 * a.results.length))) := by
  constructor
  · intro O numero s e
    obtain ⟨l, h1, h2, h3⟩ :=
      analyzeLoop_spec O (generate_date_range s e) 0 initState
    have hres : (analyze_lottery_history O numero s e).results = l.map (fun p => p.2) := by
      show (analyzeLoop O (generate_date_range s e) 0 initState).1.results = _
      rw [h1, foldPairs_init_results]
    have hspent : (analyze_lottery_history O numero s e).total_spent
        = (l.map (fun p => p.2.ticket_cost)).sum := by
      show (analyzeLoop O (generate_date_range s e) 0 initState).1.total_spent = _
      rw [h1, foldPairs_init_spent]
    refine ⟨rfl, ?_, rfl, ?_⟩
    · rw [hspent, hres, List.map_map]
      rfl
    · intro hcost
      have hsum := sum_map_cost_const (l.map (fun p => p.2)) (by
        intro r hr
        obtain ⟨p, hp, rfl⟩ := List.mem_map.mp hr
        exact hcost p.1 p.2 (h2 p hp))
      rw [List.map_map, List.length_map] at hsum
      rw [hspent, hres, List.length_map]
      exact hsum
  · intro O numero today fuel a ha
    simp only [fetch_all_available_data] at ha
    obtain ⟨st, hst, rfl⟩ := Option.map_eq_some'.mp ha
    obtain ⟨l, h1, h2, h3, h4⟩ := fetchAllLoop_spec O fuel today 0 initState st hst
    have hres : (mkAnalysis numero st).results = l.map (fun p => p.2) := by
      show st.results = _
      rw [h1, foldPairs_init_results]
    have hspent : (mkAnalysis numero st).total_spent
        = (l.map (fun p => p.2.ticket_cost)).sum := by
      show st.total_spent = _
      rw [h1, foldPairs_init_spent]
    refine ⟨rfl, ?_, rfl, ?_⟩
    · rw [hspent, hres, List.map_map]
      rfl
    · intro hcost
      have hsum := sum_map_cost_const (l.map (fun p => p.2)) (by
        intro r hr
        obtain ⟨p, hp, rfl⟩ := List.mem_map.mp hr
        exact hcost p.1 p.2 (h2 p hp))
      rw [List.map_map, List.length_map] at hsum
      rw [hspent, hres, List.length_map]
      exact hsum

open LotteryAnalyzer in
/-- C8, witness: the theorem applied to the two-win oracle over the range
-5..31 and to the open-ended walk that returns the two wins. -/
theorem C8_totals_witness :
    (analyze_lottery_history oracleTwoWins "11111" (-5) 31).total_spent
      = 6 * (analyze_lottery_history oracleTwoWins "11111" (-5) 31).results.length ∧
    (mkAnalysis "11111" (foldPairs initState [(5, resultWin 5), (-2, resultWin (-2))])).net_profit
      = (mkAnalysis "11111" (foldPairs initState
          [(5, resultWin 5), (-2, resultWin (-2))])).total_won
        - (mkAnalysis "11111" (foldPairs initState
            [(5, resultWin 5), (-2, resultWin (-2))])).total_spent := by
  have hcost : ∀ d r, oracleTwoWins d = some r → r.ticket_cost = 6 := by
    intro d r h
    unfold oracleTwoWins at h
    split at h
    · rw [Option.some_inj] at h
      rw [← h]
      rfl
    · exact absurd h (by simp)
  constructor
  · exact (C8_totals.1 oracleTwoWins "11111" (-5) 31).2.2.2 hcost
  · exact (C8_totals.2 oracleTwoWins "11111" 10 20
      (mkAnalysis "11111" (foldPairs initState [(5, resultWin 5), (-2, resultWin (-2))]))
      (by rfl)).2.2.1

open LotteryAnalyzer in
/-- C1, counterexample: the open-ended walk probes most-recent-first and
never re-sorts, so with data on the Saturdays 5, -2 and -9 (and none
earlier) the returned outcome sequence is by descending date, not
non-decreasing. -/
theorem C1_counterexample :
    ((fetch_all_available_data oracleThree "11111" 10 20).map
      (fun a => a.results.map (fun r => r.date))) = some [5, -2, -9] ∧
    ¬ (([5, -2, -9] : List ℤ).Pairwise (· ≤ ·)) :=
  ⟨by decide, by decide⟩

open LotteryAnalyzer in
/-- C1, amended: analyze_lottery_history returns its outcomes sorted
ascending by date (it walks the enumerated range forward), but
fetch_all_available_data returns them sorted DESCENDING by date (it walks
backward and never re-sorts); neither entry point buffers and re-sorts. -/
theorem C1_sorted :
    ∀ (O : ℤ → Option LotteryResult) (numero : String),
      (∀ d r, O d = some r → r.date = d) →
      (∀ s e : ℤ, ((analyze_lottery_history O numero s e).results.map
          (fun r => r.date)).Pairwise (· ≤ ·)) ∧
      (∀ (today : ℤ) (fuel : ℕ) (a : LotteryAnalysis),
        fetch_all_available_data O numero today fuel = some a →
        (a.results.map (fun r => r.date)).Pairwise (fun x y => y ≤ x)) := by
  intro O numero hO
  constructor
  · intro s e
    obtain ⟨l, h1, h2, h3⟩ :=
      analyzeLoop_spec O (generate_date_range s e) 0 initState
    have hres : (analyze_lottery_history O numero s e).results = l.map (fun p => p.2) := by
      show (analyzeLoop O (generate_date_range s e) 0 initState).1.results = _
      rw [h1, foldPairs_init_results]
    rw [hres, results_dates_eq O hO l h2]
    exact List.Pairwise.imp (fun h => le_of_lt h)
      (List.Pairwise.sublist h3 (genLoop_sorted e s))
  · intro today fuel a ha
    simp only [fetch_all_available_data] at ha
    obtain ⟨st, hst, rfl⟩ := Option.map_eq_some'.mp ha
    obtain ⟨l, h1, h2, h3, h4⟩ := fetchAllLoop_spec O fuel today 0 initState st hst
    have hres : (mkAnalysis numero st).results = l.map (fun p => p.2) := by
      show st.results = _
      rw [h1, foldPairs_init_results]
    rw [hres, results_dates_eq O hO l h2]
    exact List.Pairwise.imp (fun h => le_of_lt h) h3

open LotteryAnalyzer in
/-- C1, witness: the theorem applied to the three-Saturday oracle, forward
over the range 0..31 and backward from day 10. -/
theorem C1_sorted_witness :
    ((analyze_lottery_history oracleThree "11111" 0 31).results.map
      (fun r => r.date)).Pairwise (· ≤ ·) ∧
    (([5, -2, -9] : List ℤ).Pairwise (fun x y : ℤ => y ≤ x)) := by
  have hO : ∀ d r, oracleThree d = some r → r.date = d := by
    intro d r h
    unfold oracleThree at h
    split at h
    · rw [Option.some_inj] at h
      rw [← h]
      rfl
    · exact absurd h (by simp)
  constructor
  · exact (C1_sorted oracleThree "11111" hO).1 0 31
  · have h2 := (C1_sorted oracleThree "11111" hO).2 10 20
    rcases hx : fetch_all_available_data oracleThree "11111" 10 20 with _ | a
    · exfalso
      have hs : (fetch_all_available_data oracleThree "11111" 10 20).isSome = true := by
        decide
      rw [hx] at hs
      exact absurd hs (by simp)
    · have hd : a.results.map (fun r => r.date) = [5, -2, -9] := by
        have hmap : (fetch_all_available_data oracleThree "11111" 10 20).map
            (fun a => a.results.map (fun r => r.date)) = some [5, -2, -9] := by decide
        rw [hx] at hmap
        simpa using hmap
      have hp := h2 a hx
      rw [hd] at hp
      exact hp

open LotteryAnalyzer in
/-- C4: evaluation at the failing input.  Probing backward from day 10 with
wins on the Saturdays 5 and -2, fetch_all_available_data returns
last_win_date -2, the OLDEST winning date, although the chronologically
latest outcome with a win is day 5: each win overwrites last_win_date and
the walk visits recent dates first. -/
theorem C4_latest_win_evaluation :
    ((fetch_all_available_data oracleTwoWins "11111" 10 20).map
      (fun a => a.last_win_date)) = some (some (-2)) ∧
    ((fetch_all_available_data oracleTwoWins "11111" 10 20).map
      (fun a => (a.results.filter (fun r => r.has_prize)).map (fun r => r.date)))
      = some [5, -2] ∧
    ((-2 : ℤ) ≠ 5) :=
  ⟨by decide, by decide, by norm_num⟩

open LotteryAnalyzer in
/-- C10: the open-ended walk never probes the run date itself: the first
probed date is the Saturday strictly before the run date (exactly one week
back when the run date is itself a Saturday, and the greatest Saturday
below it in general), and every returned outcome is dated strictly before
the run date. -/
theorem C10_run_date_never_probed :
    (∀ today : ℤ,
      get_previous_saturday today < today ∧
      weekday (get_previous_saturday today) = 5 ∧
      (weekday today = 5 → get_previous_saturday today = today - 7) ∧
      (∀ s : ℤ, weekday s = 5 → s < today → s ≤ get_previous_saturday today) ∧
      probe_date today 0 = get_previous_saturday today) ∧
    (∀ (O : ℤ → Option LotteryResult) (numero : String) (today : ℤ) (fuel : ℕ)
        (a : LotteryAnalysis),
      fetch_all_available_data O numero today fuel = some a →
      (∀ d r, O d = some r → r.date = d) →
      ∀ r ∈ a.results, r.date < today) := by
  constructor
  · intro today
    refine ⟨get_previous_saturday_lt today, weekday_get_previous_saturday today,
      fun h => get_previous_saturday_of_sat h,
      fun s hs hlt => get_previous_saturday_greatest hs hlt, ?_⟩
    unfold probe_date
    push_cast
    ring
  · intro O numero today fuel a ha hO r hr
    simp only [fetch_all_available_data] at ha
    obtain ⟨st, hst, rfl⟩ := Option.map_eq_some'.mp ha
    obtain ⟨l, h1, h2, h3, h4⟩ := fetchAllLoop_spec O fuel today 0 initState st hst
    have hres : (mkAnalysis numero st).results = l.map (fun p => p.2) := by
      show st.results = _
      rw [h1, foldPairs_init_results]
    rw [hres] at hr
    obtain ⟨p, hp, rfl⟩ := List.mem_map.mp hr
    rw [hO p.1 p.2 (h2 p hp)]
    exact h4 p.1 (List.mem_map_of_mem _ hp)

open LotteryAnalyzer in
/-- C10, witness: the theorem applied at the Saturday run date 12 and at the
two-win backward walk from day 10. -/
theorem C10_run_date_never_probed_witness :
    get_previous_saturday 12 = 12 - 7 ∧
    (5 : ℤ) ≤ get_previous_saturday 12 ∧
    (resultWin 5).date < 10 := by
  have hO : ∀ d r, oracleTwoWins d = some r → r.date = d := by
    intro d r h
    unfold oracleTwoWins at h
    split at h
    · rw [Option.some_inj] at h
      rw [← h]
      rfl
    · exact absurd h (by simp)
  refine ⟨(C10_run_date_never_probed.1 12).2.2.1 (by decide),
    (C10_run_date_never_probed.1 12).2.2.2.1 5 (by decide) (by norm_num), ?_⟩
  exact C10_run_date_never_probed.2 oracleTwoWins "11111" 10 20
    (mkAnalysis "11111" (foldPairs initState [(5, resultWin 5), (-2, resultWin (-2))]))
    (by rfl) hO (resultWin 5) (by decide)

open LotteryAnalyzer in
/-- C6: the sequential walks stop exactly on a run of N consecutive
FetchFailures - the bounded-range walk breaks iff a block of 5 consecutive
failing dates exists in its date list, the open-ended walk returns (instead
of continuing past the given fuel) iff a block of 10 consecutive failing
probes exists among the Saturdays it can reach, and in both walks a
successful fetch resets the consecutive-failure counter to zero. -/
theorem C6_consecutive_failure_stop :
    (∀ (O : ℤ → Option LotteryResult) (ds : List ℤ),
      ((analyzeLoop O ds 0 initState).2 = true ↔
        List.replicate 5 true <:+: ds.map (fun d => (O d).isNone))) ∧
    (∀ (O : ℤ → Option LotteryResult) (numero : String) (today : ℤ) (fuel : ℕ),
      ((fetch_all_available_data O numero today fuel).isSome = true ↔
        List.replicate 10 true <:+:
          List.ofFn (fun i : Fin (fuel - 1) => (O (probe_date today (i : ℕ))).isNone))) ∧
    (∀ (O : ℤ → Option LotteryResult) (d : ℤ) (ds : List ℤ) (c : ℕ) (st : AggState)
        (r : LotteryResult),
      O d = some r →
      analyzeLoop O (d :: ds) c st = analyzeLoop O ds 0 (stepResult st d r)) ∧
    (∀ (O : ℤ → Option LotteryResult) (cur : ℤ) (c : ℕ) (st : AggState) (fuel : ℕ)
        (r : LotteryResult),
      c < 10 → O (get_previous_saturday cur) = some r →
      fetchAllLoop O cur c st (fuel + 1)
        = fetchAllLoop O (get_previous_saturday cur) 0
            (stepResult st (get_previous_saturday cur) r) fuel) := by
  refine ⟨?_, ?_, ?_, ?_⟩
  · intro O ds
    rw [analyzeLoop_snd O ds 0 initState, stopFlag_iff 5 _ 0 (by omega)]
    simp only [Nat.sub_zero]
    exact ⟨fun h => h.elim (fun hp => hp.isInfix) id, Or.inr⟩
  · intro O numero today fuel
    have hmap : (fetch_all_available_data O numero today fuel).isSome
        = (fetchAllLoop O today 0 initState fuel).isSome := by
      simp [fetch_all_available_data]
    rw [hmap, fetchAllLoop_isSome O fuel today 0 initState (by omega),
      stopFlag_iff 10 _ 0 (by omega)]
    simp only [Nat.sub_zero, probe_date]
    exact ⟨fun h => h.elim (fun hp => hp.isInfix) id, Or.inr⟩
  · intro O d ds c st r h
    simp only [analyzeLoop, h]
  · intro O cur c st fuel r hc hO
    rw [fetchAllLoop, if_pos hc]
    simp only [hO]

open LotteryAnalyzer in
/-- C6, witness: the theorem applied to an all-failing oracle over five
dates, to the open-ended walk with fuel for eleven probes, and to concrete
successful fetches in both walks. -/
theorem C6_consecutive_failure_stop_witness :
    (analyzeLoop oracleNone [0, 1, 2, 3, 4] 0 initState).2 = true ∧
    (fetch_all_available_data oracleNone "11111" 10 12).isSome = true ∧
    analyzeLoop oracleTwoWins [5] 3 initState
      = analyzeLoop oracleTwoWins [] 0 (stepResult initState 5 (resultWin 5)) ∧
    fetchAllLoop oracleTwoWins 10 3 initState 8
      = fetchAllLoop oracleTwoWins (get_previous_saturday 10) 0
          (stepResult initState (get_previous_saturday 10)
            (resultWin (get_previous_saturday 10))) 7 := by
  refine ⟨?_, ?_, ?_, ?_⟩
  · exact (C6_consecutive_failure_stop.1 oracleNone [0, 1, 2, 3, 4]).mpr (by decide)
  · exact (C6_consecutive_failure_stop.2.1 oracleNone "11111" 10 12).mpr (by decide)
  · exact C6_consecutive_failure_stop.2.2.1 oracleTwoWins 5 [] 3 initState
      (resultWin 5) rfl
  · exact C6_consecutive_failure_stop.2.2.2 oracleTwoWins 10 3 initState 7
      (resultWin (get_previous_saturday 10)) (by omega) rfl
